import Mathlib

/-!
Shallow embedding of the circuit-construction layer of the dynamic SHA-256
halo2 circuit (files `src/gate.rs` and `src/circuit.rs`), together with
theorems checking the natural-language specification against the code.

The embedding models:
* `assign_threads_sha` (gate.rs): the physical packer walking paired
  dense/spread lanes and emitting physical advice-cell writes plus
  (optionally) virtual-to-physical copy-manager entries.  The Rust
  `zip_eq` iterator panics when the two sides have different lengths;
  the panic is modelled by the `ok` flag of `PackResult`, with the
  writes issued before the panic kept in `writes` (in Rust those
  `assign_advice` side effects have already happened when the panic
  fires).
* `ShaThreadBuilder::assign_raw` (gate.rs): the branch choosing the
  `use_unknown` flag and whether a copy manager is passed.
* `ShaThreadBuilder::get_new_thread_id` / `new_thread_dense` /
  `new_thread_spread` (gate.rs): lane-id assignment, modelled as a state
  machine over the relevant counters.
* `ShaCircuitBuilder::calculate_params` (circuit.rs): layout sizing.
  The external gate-sizing capability `MultiPhaseCoreManager::calculate_params`
  is an opaque collaborator in the source, so it is a function parameter
  `gateCalc` here; the repository code around it is embedded faithfully.
* `Circuit::configure` / `configure_with_params` / `without_witnesses`
  (circuit.rs): the `unreachable!` / `unimplemented!` entry points,
  modelled with an explicit `PanicOr` result.

Field elements are a type parameter `F`; no claim depends on field
arithmetic, only on the values' identity.
-/

namespace ShaDynamic

/-- Which of the two paired physical column families a write targets:
`spread.denses[i]` or `spread.spreads[i]` in the source. -/
inductive ColKind where
  | dense
  | spread
deriving DecidableEq, Repr

/-- A virtual context (lane), `Context<F>` in the source, restricted to the
fields read by `assign_threads_sha`: its type id, its context (thread) id and
its list of advice values. -/
structure Ctx (F : Type) where
  typeId : Nat
  ctxId : Nat
  advice : List F
deriving DecidableEq, Repr

/-- One physical advice-cell assignment performed by `region.assign_advice`:
the column family, the index of the column inside the family, the row
offset, and the value written (`none` models `Value::unknown()`,
`some v` models `Value::known(v)`). -/
structure Write (F : Type) where
  kind : ColKind
  columnIdx : Nat
  row : Nat
  value : Option F
deriving DecidableEq, Repr

/-- `ContextCell::new(type_id, context_id, offset)` from the source: the
identity of an abstract cell. -/
structure ContextCell where
  typeId : Nat
  contextId : Nat
  offset : Nat
deriving DecidableEq, Repr

/-- A physical cell, as returned by `assign_advice(...).cell()`: identified
here by its column family, column index and row. -/
structure PhysCell where
  kind : ColKind
  columnIdx : Nat
  row : Nat
deriving DecidableEq, Repr

/-- The observable outcome of a run of `assign_threads_sha`: the advice
writes in program order, the `copy_manager.assigned_advices` insertions in
program order, the final `num_limb_sum` and `row_offset` counters, and
whether the run completed without panicking (`ok = false` models the
`zip_eq` length-mismatch panic; the writes already issued are kept). -/
structure PackResult (F : Type) where
  writes : List (Write F)
  copies : List (ContextCell × PhysCell)
  numLimbSum : Nat
  rowOffset : Nat
  ok : Bool
deriving DecidableEq, Repr

/-- The inner loop of `assign_threads_sha` over one lane pair:
`for (i, (&advice_dense, &advice_spread)) in ctx_dense.advice.iter().zip_eq(ctx_spread.advice.iter()).enumerate()`.
Arguments after the flags: the dense advice list, the spread advice list,
the enumerate index `i`, the running `num_limb_sum` and `row_offset`.
Per cell: `column_idx = num_limb_sum % C`; a dense write and a spread write
at `row_offset`; optional copy-manager insertions keyed by the contexts'
type id / id and the index `i`; then `num_limb_sum += 1`, and `row_offset`
gains 1 plus an extra 1 when `column_idx == C - 1`.  A length mismatch is
the `zip_eq` panic: no further writes, `ok = false`. -/
def packCells {F : Type} (C : Nat) (dTy dId sTy sId : Nat) (useUnknown track : Bool) :
    List F → List F → Nat → Nat → Nat → PackResult F
  | [], [], _i, n, r => ⟨[], [], n, r, true⟩
  | d :: ds, s :: ss, i, n, r =>
    let col := n % C
    let wd : Write F := ⟨ColKind.dense, col, r, if useUnknown then none else some d⟩
    let cd : List (ContextCell × PhysCell) :=
      if track then [(⟨dTy, dId, i⟩, ⟨ColKind.dense, col, r⟩)] else []
    let ws : Write F := ⟨ColKind.spread, col, r, if useUnknown then none else some s⟩
    let cs : List (ContextCell × PhysCell) :=
      if track then [(⟨sTy, sId, i⟩, ⟨ColKind.spread, col, r⟩)] else []
    let r' := if col = C - 1 then r + 2 else r + 1
    let rest := packCells C dTy dId sTy sId useUnknown track ds ss (i + 1) (n + 1) r'
    ⟨wd :: ws :: rest.writes, cd ++ cs ++ rest.copies, rest.numLimbSum, rest.rowOffset, rest.ok⟩
  | _, _, _i, n, r => ⟨[], [], n, r, false⟩

/-- The outer loop of `assign_threads_sha`:
`for (ctx_dense, ctx_spread) in threads_dense.iter().zip_eq(threads_spread.iter())`,
threading `num_limb_sum` and `row_offset` through the lane pairs.  An inner
panic (mismatched pair) or an outer `zip_eq` mismatch stops the run with
`ok = false`. -/
def assignShaLoop {F : Type} (C : Nat) (useUnknown track : Bool) :
    List (Ctx F) → List (Ctx F) → Nat → Nat → PackResult F
  | [], [], n, r => ⟨[], [], n, r, true⟩
  | cd :: cds, cs :: css, n, r =>
    let res := packCells C cd.typeId cd.ctxId cs.typeId cs.ctxId useUnknown track
      cd.advice cs.advice 0 n r
    if res.ok then
      let rest := assignShaLoop C useUnknown track cds css res.numLimbSum res.rowOffset
      ⟨res.writes ++ rest.writes, res.copies ++ rest.copies,
        rest.numLimbSum, rest.rowOffset, rest.ok⟩
    else
      ⟨res.writes, res.copies, res.numLimbSum, res.rowOffset, false⟩
  | _, _, n, r => ⟨[], [], n, r, false⟩

/-- `assign_threads_sha` (gate.rs): both counters start at 0.  `C` is
`spread.num_advice_columns`; `useUnknown` is the `use_unknown` argument and
`track` is whether a `Some(copy_manager)` was supplied. -/
def assign_threads_sha {F : Type} (C : Nat) (useUnknown track : Bool)
    (threadsDense threadsSpread : List (Ctx F)) : PackResult F :=
  assignShaLoop C useUnknown track threadsDense threadsSpread 0 0

/-- The SHA part of `ShaThreadBuilder::assign_raw` (gate.rs): when
`witness_gen_only()` holds it locks the copy manager and calls
`assign_threads_sha(..., self.use_unknown(), Some(&mut copy_manager))`;
otherwise it calls `assign_threads_sha(..., false, None)`.  (The delegated
`self.core.phase_manager[0].assign_raw` call is an external collaborator
and is not part of this model.) -/
def assign_raw {F : Type} (witnessGenOnly useUnknown : Bool) (C : Nat)
    (threadsDense threadsSpread : List (Ctx F)) : PackResult F :=
  if witnessGenOnly then
    assign_threads_sha C useUnknown true threadsDense threadsSpread
  else
    assign_threads_sha C false false threadsDense threadsSpread

/-- The layout-relevant part of a write: column family, column index, row. -/
def writePos {F : Type} (w : Write F) : ColKind × Nat × Nat :=
  (w.kind, w.columnIdx, w.row)

/-- The (column, row) slots of the dense-family writes, in program order. -/
def densePositions {F : Type} (res : PackResult F) : List (Nat × Nat) :=
  (res.writes.filter fun w => decide (w.kind = ColKind.dense)).map
    fun w => (w.columnIdx, w.row)

/-- The (column, row) slots of the spread-family writes, in program order. -/
def spreadPositions {F : Type} (res : PackResult F) : List (Nat × Nat) :=
  (res.writes.filter fun w => decide (w.kind = ColKind.spread)).map
    fun w => (w.columnIdx, w.row)

/-- The positions the packer actually produces for cells with running
counter values `n, n+1, ..., n+count-1`: for counter value `m` a dense and
a spread write, both in column `m % C` at row `m + m / C`. -/
def expectedPositions (C : Nat) : Nat → Nat → List (ColKind × Nat × Nat)
  | _n, 0 => []
  | n, count + 1 =>
    (ColKind.dense, n % C, n + n / C) :: (ColKind.spread, n % C, n + n / C) ::
      expectedPositions C (n + 1) count

/-- Total number of abstract cells over a list of lanes. -/
def totalCells {F : Type} (threads : List (Ctx F)) : Nat :=
  (threads.map fun c => c.advice.length).sum

/-- `FlexGateConfigParams` as returned by the external gate-sizing
capability (`MultiPhaseCoreManager::calculate_params`), restricted to the
fields the repository code reads. -/
structure FlexGateConfigParams where
  k : Nat
  num_advice_per_phase : List Nat
  num_fixed : Nat
deriving DecidableEq, Repr

/-- `BaseCircuitParams`: the shape descriptor assembled by
`ShaCircuitBuilder::calculate_params`. -/
structure BaseCircuitParams where
  k : Nat
  num_advice_per_phase : List Nat
  num_fixed : Nat
  num_lookup_advice_per_phase : List Nat
  lookup_bits : Option Nat
  num_instance_columns : Nat
deriving DecidableEq, Repr

/-- `ShaCircuitBuilder` restricted to the state read and written by
`calculate_params`: the core lane statistics (opaque type `σ`, cloned, never
consumed), the per-phase totals reported by the lookup managers
(`lm.total_rows()` for each of the `MAX_PHASE` managers), and the current
`config_params`. -/
structure ShaCircuitBuilderM (σ : Type) where
  core : σ
  lookupTotalRows : List Nat
  configParams : BaseCircuitParams
deriving DecidableEq, Repr

/-- `ShaCircuitBuilder::calculate_params` (circuit.rs): reads
`k` and `num_instance_columns` from the current `config_params`, computes
`max_rows = (1 << k) - minimum_rows.unwrap_or(0)`, clones the core and asks
the external gate sizing (`gateCalc`) for the gate parameters, maps each
phase's total lookup rows through `(count + max_rows - 1) / max_rows`,
assembles the `BaseCircuitParams` and stores it back into
`config_params`. -/
def ShaCircuitBuilderM.calculate_params {σ : Type} (b : ShaCircuitBuilderM σ)
    (gateCalc : σ → Nat → Option Nat → FlexGateConfigParams)
    (minimumRows : Option Nat) : BaseCircuitParams × ShaCircuitBuilderM σ :=
  let k := b.configParams.k
  let ni := b.configParams.num_instance_columns
  let maxRows := 2 ^ k - minimumRows.getD 0
  let gateParams := gateCalc b.core k minimumRows
  let numLookup := b.lookupTotalRows.map fun count => (count + maxRows - 1) / maxRows
  let params : BaseCircuitParams :=
    { k := gateParams.k
      num_advice_per_phase := gateParams.num_advice_per_phase
      num_fixed := gateParams.num_fixed
      num_lookup_advice_per_phase := numLookup
      lookup_bits := b.configParams.lookup_bits
      num_instance_columns := ni }
  (params, { b with configParams := params })

/-- Result of a Rust entry point that either returns a value or panics
(`unreachable!` / `unimplemented!`). -/
inductive PanicOr (α : Type) where
  | panicked (msg : String)
  | ok (val : α)
deriving DecidableEq, Repr

/-- `SHAConfig`: the configuration produced by `SHAConfig::configure`.
`BaseConfig::configure(meta, params)` is external and is modelled by
recording the params it was given; `SpreadConfig::configure(meta, 8, 1)` is
external and is modelled by its two constant arguments (lookup bit width 8,
one dense/spread advice column pair) - constants in the source, independent
of the shape descriptor. -/
structure SHAConfigModel where
  baseParams : BaseCircuitParams
  spreadNumBitsLookup : Nat
  spreadNumAdvice : Nat
deriving DecidableEq, Repr

/-- `SHAConfig::configure(meta, params)` (circuit.rs). -/
def SHAConfig.configure {CS : Type} (_cs : CS) (params : BaseCircuitParams) :
    SHAConfigModel :=
  { baseParams := params, spreadNumBitsLookup := 8, spreadNumAdvice := 1 }

/-- `Circuit::configure_with_params` (circuit.rs): delegates to
`SHAConfig::configure`. -/
def configure_with_params {CS : Type} (cs : CS) (params : BaseCircuitParams) :
    PanicOr SHAConfigModel :=
  PanicOr.ok (SHAConfig.configure cs params)

/-- `Circuit::configure` (circuit.rs): the zero-shape entry point, which is
`unreachable!("You must use configure_with_params")` for every constraint
system. -/
def configure {CS : Type} (_cs : CS) : PanicOr SHAConfigModel :=
  PanicOr.panicked "You must use configure_with_params"

/-- `Circuit::without_witnesses` (circuit.rs): `unimplemented!()` for every
builder state. -/
def without_witnesses {σ : Type} (_b : ShaCircuitBuilderM σ) :
    PanicOr (ShaCircuitBuilderM σ) :=
  PanicOr.panicked "not implemented"

/-- The state read and written by the lane-creation functions of
`ShaThreadBuilder` (gate.rs): the number of phase-0 core gate threads
(`self.core.phase_manager[0].thread_count()`, which only the core manager
grows), and the ids handed to the dense and spread lanes created so far. -/
structure ShaThreadState where
  coreThreadCount : Nat
  denseIds : List Nat
  spreadIds : List Nat
deriving DecidableEq, Repr

/-- `ShaThreadBuilder::get_new_thread_id`: returns the phase-0 core thread
count; it mutates nothing. -/
def get_new_thread_id (s : ShaThreadState) : Nat :=
  s.coreThreadCount

/-- `ShaThreadBuilder::new_thread_dense`: pushes a new dense lane whose id
is `get_new_thread_id()`; the core thread count is untouched. -/
def new_thread_dense (s : ShaThreadState) : ShaThreadState :=
  { s with denseIds := s.denseIds ++ [get_new_thread_id s] }

/-- `ShaThreadBuilder::new_thread_spread`: pushes a new spread lane whose id
is `get_new_thread_id()`; the core thread count is untouched. -/
def new_thread_spread (s : ShaThreadState) : ShaThreadState :=
  { s with spreadIds := s.spreadIds ++ [get_new_thread_id s] }

/-- Creation of a new phase-0 core gate thread by the external core manager
(e.g. through `core.main(FIRST_PHASE)`): grows the core thread count. -/
def new_core_thread (s : ShaThreadState) : ShaThreadState :=
  { s with coreThreadCount := s.coreThreadCount + 1 }

/-- The lane-creation operations available on a `ShaThreadBuilder`. -/
inductive ThreadOp where
  | denseLane
  | spreadLane
  | coreLane
deriving DecidableEq, Repr

/-- Apply one lane-creation operation. -/
def applyThreadOp (s : ShaThreadState) : ThreadOp → ShaThreadState
  | ThreadOp.denseLane => new_thread_dense s
  | ThreadOp.spreadLane => new_thread_spread s
  | ThreadOp.coreLane => new_core_thread s

/-- Run a sequence of lane-creation operations. -/
def runThreadOps (s : ShaThreadState) (ops : List ThreadOp) : ShaThreadState :=
  ops.foldl applyThreadOp s

/-- The state right after `ShaThreadBuilder::new`: no lanes, no core
threads. -/
def initialThreadState : ShaThreadState :=
  ⟨0, [], []⟩

/-- Invariant of the lane-creation state machine: both id lists are
non-decreasing and bounded by the core thread count. -/
def threadInv (s : ShaThreadState) : Prop :=
  s.denseIds.Chain' (· ≤ ·) ∧ s.spreadIds.Chain' (· ≤ ·) ∧
    (∀ x ∈ s.denseIds, x ≤ s.coreThreadCount) ∧
    (∀ x ∈ s.spreadIds, x ≤ s.coreThreadCount)

end ShaDynamic

namespace ShaDynamic

/-! ## Arithmetic helpers for the packer's row recurrence -/

/-- Division of a successor: the quotient grows exactly when the remainder
was about to wrap. -/
theorem succ_div_wrap (C n : Nat) (hC : 0 < C) :
    (n + 1) / C = n / C + (if n % C = C - 1 then 1 else 0) := by
  have hmod : n % C < C := Nat.mod_lt n hC
  have hdm : C * (n / C) + n % C = n := Nat.div_add_mod n C
  by_cases h : n % C = C - 1
  · have hn : n + 1 = C * (n / C) + C := by omega
    rw [hn, Nat.mul_add_div hC, Nat.div_self hC, if_pos h]
  · have hlt : n % C + 1 < C := by omega
    have hn : n + 1 = C * (n / C) + (n % C + 1) := by omega
    rw [hn, Nat.mul_add_div hC, Nat.div_eq_of_lt hlt, if_neg h]

/-- One step of the packer's `row_offset` recurrence, starting from the
invariant value `n + n / C`. -/
theorem row_step (C n : Nat) (hC : 0 < C) :
    (if n % C = C - 1 then n + n / C + 2 else n + n / C + 1)
      = (n + 1) + (n + 1) / C := by
  rw [succ_div_wrap C n hC]
  by_cases h : n % C = C - 1
  · rw [if_pos h, if_pos h]; omega
  · rw [if_neg h, if_neg h]; omega

/-! ## Basic structure of `packCells` -/

/-- The inner loop emits exactly two writes per pair it manages to consume:
the common prefix of the two lanes. -/
theorem packCells_writes_length {F : Type} (C dTy dId sTy sId : Nat)
    (u t : Bool) :
    ∀ (ds ss : List F) (i n r : Nat),
      (packCells C dTy dId sTy sId u t ds ss i n r).writes.length
        = 2 * min ds.length ss.length := by
  intro ds
  induction ds with
  | nil => intro ss i n r; cases ss <;> simp [packCells]
  | cons d ds ih =>
    intro ss i n r
    cases ss with
    | nil => simp [packCells]
    | cons s ss =>
      simp only [packCells, List.length_cons, ih]
      omega

/-- The inner loop completes without the `zip_eq` panic exactly when the two
lanes have equal length. -/
theorem packCells_ok_iff {F : Type} (C dTy dId sTy sId : Nat) (u t : Bool) :
    ∀ (ds ss : List F) (i n r : Nat),
      (packCells C dTy dId sTy sId u t ds ss i n r).ok = true
        ↔ ds.length = ss.length := by
  intro ds
  induction ds with
  | nil => intro ss i n r; cases ss <;> simp [packCells]
  | cons d ds ih =>
    intro ss i n r
    cases ss with
    | nil => simp [packCells]
    | cons s ss => simp only [packCells, List.length_cons, ih]; omega

end ShaDynamic

namespace ShaDynamic

/-! ## Lane-id state machine -/

/-- Appending an upper bound to a non-decreasing list keeps it
non-decreasing. -/
theorem chain_le_append_singleton :
    ∀ (l : List Nat) (c : Nat), l.Chain' (· ≤ ·) → (∀ x ∈ l, x ≤ c) →
      (l ++ [c]).Chain' (· ≤ ·) := by
  intro l
  induction l with
  | nil => intro c _ _; simp
  | cons a l ih =>
    intro c h1 h2
    rw [List.cons_append, List.chain'_cons']
    rw [List.chain'_cons'] at h1
    refine ⟨?_, ih c h1.2 fun x hx => h2 x (List.mem_cons_of_mem a hx)⟩
    intro y hy
    cases l with
    | nil =>
      simp at hy
      subst hy
      exact h2 a (List.mem_cons_self a [])
    | cons b l' =>
      simp at hy
      subst hy
      exact h1.1 b rfl

/-- Every lane-creation operation preserves the monotonicity invariant. -/
theorem threadInv_step (s : ShaThreadState) (op : ThreadOp)
    (h : threadInv s) : threadInv (applyThreadOp s op) := by
  obtain ⟨hd, hs, hbd, hbs⟩ := h
  cases op with
  | denseLane =>
    simp only [threadInv, applyThreadOp, new_thread_dense, get_new_thread_id]
    refine ⟨chain_le_append_singleton _ _ hd hbd, hs, ?_, hbs⟩
    intro x hx
    rcases List.mem_append.mp hx with hx | hx
    · exact hbd x hx
    · simp at hx
      omega
  | spreadLane =>
    simp only [threadInv, applyThreadOp, new_thread_spread, get_new_thread_id]
    refine ⟨hd, chain_le_append_singleton _ _ hs hbs, hbd, ?_⟩
    intro x hx
    rcases List.mem_append.mp hx with hx | hx
    · exact hbs x hx
    · simp at hx
      omega
  | coreLane =>
    simp only [threadInv, applyThreadOp, new_core_thread]
    exact ⟨hd, hs, fun x hx => Nat.le_succ_of_le (hbd x hx),
      fun x hx => Nat.le_succ_of_le (hbs x hx)⟩

/-- Running any operation sequence preserves the monotonicity invariant. -/
theorem threadInv_run (ops : List ThreadOp) :
    ∀ s : ShaThreadState, threadInv s → threadInv (runThreadOps s ops) := by
  induction ops with
  | nil => intro s h; exact h
  | cons op ops ih =>
    intro s h
    exact ih (applyThreadOp s op) (threadInv_step s op h)

/-- C9 counterexample: starting from a fresh builder, create one core gate
thread and then two dense lanes in a row.  Both dense lanes receive lane id
1 (the core thread count, which `get_new_thread_id` reads without bumping),
so the second id is not strictly greater than the first: the dense-id list
is not strictly increasing. -/
theorem thread_id_not_strictly_increasing_cex :
    (runThreadOps initialThreadState
        [ThreadOp.coreLane, ThreadOp.denseLane, ThreadOp.denseLane]).denseIds = [1, 1]
      ∧ ¬ (runThreadOps initialThreadState
        [ThreadOp.coreLane, ThreadOp.denseLane, ThreadOp.denseLane]).denseIds.Chain'
          (· < ·) := by
  constructor
  · rfl
  · have h : (runThreadOps initialThreadState
        [ThreadOp.coreLane, ThreadOp.denseLane, ThreadOp.denseLane]).denseIds = [1, 1] := rfl
    rw [h]
    intro hc
    rw [List.chain'_cons] at hc
    exact absurd hc.1 (lt_irrefl 1)

/-- C9 (amended): `get_new_thread_id` hands out the current phase-0 core
thread count without incrementing anything, so every lane creation appends
exactly that count; consequently the ids of each lane type are
non-decreasing (they strictly increase only when core gate threads are
created in between, and repeat otherwise). -/
theorem thread_ids_monotone (ops : List ThreadOp) :
    ((runThreadOps initialThreadState ops).denseIds.Chain' (· ≤ ·)
      ∧ (runThreadOps initialThreadState ops).spreadIds.Chain' (· ≤ ·))
    ∧ (new_thread_dense (runThreadOps initialThreadState ops)).denseIds
        = (runThreadOps initialThreadState ops).denseIds
          ++ [(runThreadOps initialThreadState ops).coreThreadCount]
    ∧ (new_thread_spread (runThreadOps initialThreadState ops)).spreadIds
        = (runThreadOps initialThreadState ops).spreadIds
          ++ [(runThreadOps initialThreadState ops).coreThreadCount] := by
  have h := threadInv_run ops initialThreadState
    ⟨List.chain'_nil, List.chain'_nil, by simp [initialThreadState], by simp [initialThreadState]⟩
  exact ⟨⟨h.1, h.2.1⟩, rfl, rfl⟩

/-! ## The `unreachable!` and `unimplemented!` entry points -/

/-- C7: the zero-shape `Circuit::configure` entry point is
`unreachable!("You must use configure_with_params")`: it fails identically
for every constraint system, while `configure_with_params` returns the
config built by `SHAConfig::configure`. -/
theorem configure_unconditionally_fails {CS : Type} (cs : CS) :
    configure cs = PanicOr.panicked "You must use configure_with_params"
      ∧ ∀ params : BaseCircuitParams,
          configure_with_params cs params = PanicOr.ok (SHAConfig.configure cs params) :=
  ⟨rfl, fun _ => rfl⟩

/-- C10: `ShaCircuitBuilder::without_witnesses` is `unimplemented!()`: it
panics for every builder state, so the standard `Circuit` trait entry point
can never rebuild the circuit without witnesses. -/
theorem without_witnesses_always_panics {σ : Type} (b : ShaCircuitBuilderM σ) :
    without_witnesses b = PanicOr.panicked "not implemented" :=
  rfl

/-! ## Copy-manager tracking in `assign_raw` -/

/-- C2 (code bug): evaluating `ShaThreadBuilder::assign_raw` on a one-cell
lane pair shows the virtual-to-physical map is populated exactly in the
pure witness-generation mode and left empty otherwise - the inverse of the
claim: with `witness_gen_only = false` (mock/keygen, where the constraint
replay in `sub_synthesize` runs and needs the map) no mapping is recorded,
and with `witness_gen_only = true` both cells are recorded. -/
theorem assign_raw_copy_tracking_inverted :
    (assign_raw false true 4 [(⟨0, 0, [(7 : Nat)]⟩ : Ctx Nat)]
        [(⟨1, 1, [7]⟩ : Ctx Nat)]).copies = []
      ∧ (assign_raw true false 4 [(⟨0, 0, [(7 : Nat)]⟩ : Ctx Nat)]
        [(⟨1, 1, [7]⟩ : Ctx Nat)]).copies
          = [(⟨0, 0, 0⟩, ⟨ColKind.dense, 0, 0⟩), (⟨1, 1, 0⟩, ⟨ColKind.spread, 0, 0⟩)] := by
  constructor <;> rfl

end ShaDynamic

namespace ShaDynamic

/-! ## The packer's position invariant -/

/-- Inner-loop invariant: starting from counter `n` and row offset
`n + n / C` (the shape every run maintains, with both 0 initially), a lane
pair of equal length `L` emits the positions of counters `n .. n+L-1`,
advances `num_limb_sum` to `n + L` and `row_offset` to
`(n + L) + (n + L) / C`, and finishes without panicking. -/
theorem packCells_run {F : Type} (C dTy dId sTy sId : Nat) (u t : Bool)
    (hC : 0 < C) :
    ∀ (ds ss : List F) (i n : Nat), ds.length = ss.length →
      ((packCells C dTy dId sTy sId u t ds ss i n (n + n / C)).writes.map writePos
          = expectedPositions C n ds.length)
        ∧ (packCells C dTy dId sTy sId u t ds ss i n (n + n / C)).numLimbSum
          = n + ds.length
        ∧ (packCells C dTy dId sTy sId u t ds ss i n (n + n / C)).rowOffset
          = (n + ds.length) + (n + ds.length) / C
        ∧ (packCells C dTy dId sTy sId u t ds ss i n (n + n / C)).ok = true := by
  intro ds
  induction ds with
  | nil =>
    intro ss i n h
    have hss : ss = [] := List.eq_nil_of_length_eq_zero h.symm
    subst hss
    simp [packCells, expectedPositions]
  | cons d ds ih =>
    intro ss i n h
    cases ss with
    | nil => simp at h
    | cons s ss =>
      have hlen : ds.length = ss.length := by simpa using h
      have hrow : (if n % C = C - 1 then n + n / C + 2 else n + n / C + 1)
          = (n + 1) + (n + 1) / C := row_step C n hC
      obtain ⟨ih1, ih2, ih3, ih4⟩ := ih ss (i + 1) (n + 1) hlen
      simp only [packCells, List.length_cons]
      rw [hrow]
      refine ⟨?_, ?_, ?_, ih4⟩
      · simp only [List.map_cons, ih1, expectedPositions, writePos]
      · rw [ih2]; omega
      · rw [ih3]
        have heq : n + 1 + ds.length = n + (ds.length + 1) := by omega
        rw [heq]

/-- `expectedPositions` splits along a sum of counts. -/
theorem expectedPositions_append (C : Nat) :
    ∀ (a b n : Nat), expectedPositions C n (a + b)
      = expectedPositions C n a ++ expectedPositions C (n + a) b := by
  intro a
  induction a with
  | zero => intro b n; simp [expectedPositions]
  | succ a ih =>
    intro b n
    have h1 : a + 1 + b = (a + b) + 1 := by omega
    rw [h1]
    simp only [expectedPositions, List.cons_append]
    rw [ih b (n + 1)]
    have h2 : n + 1 + a = n + (a + 1) := by omega
    rw [h2]

/-- Outer-loop invariant: with length-matched lane pairs, starting from
counter `n` and row offset `n + n / C`, the packer emits the positions of
counters `n .. n+N-1` for `N` the total cell count, advances the counters
accordingly and completes without panicking. -/
theorem assignShaLoop_run {F : Type} (C : Nat) (u t : Bool) (hC : 0 < C) :
    ∀ (d s : List (Ctx F)) (n : Nat),
      d.map (fun c => c.advice.length) = s.map (fun c => c.advice.length) →
      ((assignShaLoop C u t d s n (n + n / C)).writes.map writePos
          = expectedPositions C n (totalCells d))
        ∧ (assignShaLoop C u t d s n (n + n / C)).numLimbSum = n + totalCells d
        ∧ (assignShaLoop C u t d s n (n + n / C)).rowOffset
          = (n + totalCells d) + (n + totalCells d) / C
        ∧ (assignShaLoop C u t d s n (n + n / C)).ok = true := by
  intro d
  induction d with
  | nil =>
    intro s n h
    have hs : s = [] := by
      cases s with
      | nil => rfl
      | cons c cs => simp at h
    subst hs
    simp [assignShaLoop, expectedPositions, totalCells]
  | cons cd cds ih =>
    intro s n h
    cases s with
    | nil => simp at h
    | cons cs css =>
      simp only [List.map_cons, List.cons.injEq] at h
      obtain ⟨hlen, htail⟩ := h
      obtain ⟨p1, p2, p3, p4⟩ := packCells_run C cd.typeId cd.ctxId cs.typeId
        cs.ctxId u t hC cd.advice cs.advice 0 n hlen
      obtain ⟨q1, q2, q3, q4⟩ := ih css (n + cd.advice.length) htail
      have htot : totalCells (cd :: cds) = cd.advice.length + totalCells cds := by
        simp [totalCells]
      simp only [assignShaLoop]
      rw [p4, if_pos rfl, p2, p3]
      refine ⟨?_, ?_, ?_, q4⟩
      · rw [List.map_append, p1, q1, htot, expectedPositions_append]
      · rw [q2, htot]; omega
      · rw [q3, htot]
        have heq : n + cd.advice.length + totalCells cds
            = n + (cd.advice.length + totalCells cds) := by omega
        rw [heq]

/-- C1 counterexample: a single lane pair of 10 cells with column width
`C = 4`.  The claim places cell 9 at row `9 / 4 = 2` and predicts
`ceil(10/4) = 3` rows consumed; the code places cell 9 (the 19th write,
index 18) at row 11 and leaves the row offset at 12, because `row_offset`
is incremented after every cell in addition to the wrap increment. -/
theorem assign_threads_sha_cell9_cex :
    ((assign_threads_sha 4 false false [(⟨0, 0, List.replicate 10 (0 : Nat)⟩ : Ctx Nat)]
        [(⟨1, 1, List.replicate 10 (0 : Nat)⟩ : Ctx Nat)]).writes.map writePos)[18]?
        = some (ColKind.dense, 1, 11)
      ∧ ((assign_threads_sha 4 false false [(⟨0, 0, List.replicate 10 (0 : Nat)⟩ : Ctx Nat)]
        [(⟨1, 1, List.replicate 10 (0 : Nat)⟩ : Ctx Nat)]).writes.map writePos)[18]?
        ≠ some (ColKind.dense, 1, 2)
      ∧ (assign_threads_sha 4 false false [(⟨0, 0, List.replicate 10 (0 : Nat)⟩ : Ctx Nat)]
        [(⟨1, 1, List.replicate 10 (0 : Nat)⟩ : Ctx Nat)]).rowOffset = 12 := by
  refine ⟨rfl, ?_, rfl⟩
  decide

/-- C1 (amended): for a packing run over length-matched lane pairs with
column width `C > 0`, the cell with running-counter value `n` lands at
column `n % C` but at row `n + n / C` (not `n / C`): the row offset
advances after every cell and once more after column `C - 1`.  A run with
`N` total cells leaves the row offset at `N + N / C`, each cell pair
occupying a row of its own. -/
theorem assign_threads_sha_packing_shape {F : Type} (C : Nat) (u t : Bool)
    (threadsDense threadsSpread : List (Ctx F)) (hC : 0 < C)
    (hlen : threadsDense.map (fun c => c.advice.length)
      = threadsSpread.map (fun c => c.advice.length)) :
    ((assign_threads_sha C u t threadsDense threadsSpread).writes.map writePos
        = expectedPositions C 0 (totalCells threadsDense))
      ∧ (assign_threads_sha C u t threadsDense threadsSpread).rowOffset
        = totalCells threadsDense + totalCells threadsDense / C := by
  have h := assignShaLoop_run C u t hC threadsDense threadsSpread 0 hlen
  have h0 : (0 : Nat) + 0 / C = 0 := by simp
  rw [h0] at h
  have h2 := h.2.2.1
  simp only [Nat.zero_add] at h2
  exact ⟨h.1, by simpa [assign_threads_sha] using h2⟩

/-- Witness for the amended C1 at the spec's own example size: one pair of
10-cell lanes, `C = 4`. -/
theorem assign_threads_sha_packing_shape_witness :
    ((0 < 4)
      ∧ ([(⟨0, 0, List.replicate 10 (0 : Nat)⟩ : Ctx Nat)].map (fun c => c.advice.length)
          = [(⟨1, 1, List.replicate 10 (0 : Nat)⟩ : Ctx Nat)].map fun c => c.advice.length))
    ∧ (((assign_threads_sha 4 false false [(⟨0, 0, List.replicate 10 (0 : Nat)⟩ : Ctx Nat)]
          [(⟨1, 1, List.replicate 10 (0 : Nat)⟩ : Ctx Nat)]).writes.map writePos
        = expectedPositions 4 0
            (totalCells [(⟨0, 0, List.replicate 10 (0 : Nat)⟩ : Ctx Nat)]))
      ∧ (assign_threads_sha 4 false false [(⟨0, 0, List.replicate 10 (0 : Nat)⟩ : Ctx Nat)]
          [(⟨1, 1, List.replicate 10 (0 : Nat)⟩ : Ctx Nat)]).rowOffset
        = totalCells [(⟨0, 0, List.replicate 10 (0 : Nat)⟩ : Ctx Nat)]
          + totalCells [(⟨0, 0, List.replicate 10 (0 : Nat)⟩ : Ctx Nat)] / 4) :=
  ⟨⟨by decide, by decide⟩,
    assign_threads_sha_packing_shape 4 false false
      [(⟨0, 0, List.replicate 10 (0 : Nat)⟩ : Ctx Nat)]
      [(⟨1, 1, List.replicate 10 (0 : Nat)⟩ : Ctx Nat)] (by decide) (by decide)⟩

end ShaDynamic

namespace ShaDynamic

/-! ## Dense/spread pairing of slots -/

/-- Inner loop: the dense-family slots and the spread-family slots coincide
(in program order), since each cell pair writes both families at the same
column index and row. -/
theorem packCells_filter_pair {F : Type} (C dTy dId sTy sId : Nat)
    (u t : Bool) :
    ∀ (ds ss : List F) (i n r : Nat),
      ((packCells C dTy dId sTy sId u t ds ss i n r).writes.filter
          fun w => decide (w.kind = ColKind.dense)).map (fun w => (w.columnIdx, w.row))
        = ((packCells C dTy dId sTy sId u t ds ss i n r).writes.filter
          fun w => decide (w.kind = ColKind.spread)).map fun w => (w.columnIdx, w.row) := by
  intro ds
  induction ds with
  | nil => intro ss i n r; cases ss <;> simp [packCells]
  | cons d ds ih =>
    intro ss i n r
    cases ss with
    | nil => simp [packCells]
    | cons s ss =>
      simp only [packCells, List.filter_cons, List.map_cons]
      simp [ih ss (i + 1) (n + 1)]

/-- Outer loop: dense and spread slots coincide for the whole run (also for
runs cut short by a panic). -/
theorem assignShaLoop_filter_pair {F : Type} (C : Nat) (u t : Bool) :
    ∀ (d s : List (Ctx F)) (n r : Nat),
      densePositions (assignShaLoop C u t d s n r)
        = spreadPositions (assignShaLoop C u t d s n r) := by
  intro d
  induction d with
  | nil =>
    intro s n r
    cases s <;> simp [assignShaLoop, densePositions, spreadPositions]
  | cons cd cds ih =>
    intro s n r
    cases s with
    | nil => simp [assignShaLoop, densePositions, spreadPositions]
    | cons cs css =>
      simp only [assignShaLoop, densePositions, spreadPositions]
      by_cases hok : (packCells C cd.typeId cd.ctxId cs.typeId cs.ctxId u t
          cd.advice cs.advice 0 n r).ok = true
      · rw [if_pos hok]
        simp only [List.filter_append, List.map_append]
        have hpk := packCells_filter_pair C cd.typeId cd.ctxId cs.typeId cs.ctxId u t
          cd.advice cs.advice 0 n r
        have hih := ih css
          (packCells C cd.typeId cd.ctxId cs.typeId cs.ctxId u t
            cd.advice cs.advice 0 n r).numLimbSum
          (packCells C cd.typeId cd.ctxId cs.typeId cs.ctxId u t
            cd.advice cs.advice 0 n r).rowOffset
        simp only [densePositions, spreadPositions] at hih
        rw [hpk, hih]
      · rw [if_neg hok]
        exact packCells_filter_pair C cd.typeId cd.ctxId cs.typeId cs.ctxId u t
          cd.advice cs.advice 0 n r

/-- C8: for every run of the packer, the i-th dense-family write and the
i-th spread-family write land in the same column index (into the paired
`denses`/`spreads` columns) at the same row: the lists of dense and spread
(column, row) slots are equal elementwise and in order. -/
theorem assign_threads_sha_pair_same_slot {F : Type} (C : Nat) (u t : Bool)
    (threadsDense threadsSpread : List (Ctx F)) :
    densePositions (assign_threads_sha C u t threadsDense threadsSpread)
      = spreadPositions (assign_threads_sha C u t threadsDense threadsSpread) :=
  assignShaLoop_filter_pair C u t threadsDense threadsSpread 0 0

end ShaDynamic

namespace ShaDynamic

/-! ## Shape determinism -/

/-- Inner loop congruence: two runs over lanes of equal lengths produce the
same write positions, counters and panic status, whatever the stored
values, ids, `use_unknown` flags or copy-manager tracking. -/
theorem packCells_shape_congr {F G : Type} (C : Nat)
    (dTy₁ dId₁ sTy₁ sId₁ dTy₂ dId₂ sTy₂ sId₂ : Nat) (u₁ t₁ u₂ t₂ : Bool) :
    ∀ (ds₁ : List F) (ds₂ : List G) (ss₁ : List F) (ss₂ : List G) (i₁ i₂ n r : Nat),
      ds₁.length = ds₂.length → ss₁.length = ss₂.length →
      ((packCells C dTy₁ dId₁ sTy₁ sId₁ u₁ t₁ ds₁ ss₁ i₁ n r).writes.map writePos
          = (packCells C dTy₂ dId₂ sTy₂ sId₂ u₂ t₂ ds₂ ss₂ i₂ n r).writes.map writePos)
        ∧ (packCells C dTy₁ dId₁ sTy₁ sId₁ u₁ t₁ ds₁ ss₁ i₁ n r).numLimbSum
          = (packCells C dTy₂ dId₂ sTy₂ sId₂ u₂ t₂ ds₂ ss₂ i₂ n r).numLimbSum
        ∧ (packCells C dTy₁ dId₁ sTy₁ sId₁ u₁ t₁ ds₁ ss₁ i₁ n r).rowOffset
          = (packCells C dTy₂ dId₂ sTy₂ sId₂ u₂ t₂ ds₂ ss₂ i₂ n r).rowOffset
        ∧ (packCells C dTy₁ dId₁ sTy₁ sId₁ u₁ t₁ ds₁ ss₁ i₁ n r).ok
          = (packCells C dTy₂ dId₂ sTy₂ sId₂ u₂ t₂ ds₂ ss₂ i₂ n r).ok := by
  intro ds₁
  induction ds₁ with
  | nil =>
    intro ds₂ ss₁ ss₂ i₁ i₂ n r h1 h2
    have hd2 : ds₂ = [] := List.eq_nil_of_length_eq_zero h1.symm
    subst hd2
    cases ss₁ with
    | nil =>
      have hs2 : ss₂ = [] := List.eq_nil_of_length_eq_zero h2.symm
      subst hs2
      simp [packCells]
    | cons a as =>
      cases ss₂ with
      | nil => simp at h2
      | cons b bs => simp [packCells]
  | cons d ds ih =>
    intro ds₂ ss₁ ss₂ i₁ i₂ n r h1 h2
    cases ds₂ with
    | nil => simp at h1
    | cons e es =>
      cases ss₁ with
      | nil =>
        cases ss₂ with
        | nil => simp [packCells]
        | cons b bs => simp at h2
      | cons a as =>
        cases ss₂ with
        | nil => simp at h2
        | cons b bs =>
          have h1' : ds.length = es.length := by simpa using h1
          have h2' : as.length = bs.length := by simpa using h2
          obtain ⟨c1, c2, c3, c4⟩ := ih es as bs (i₁ + 1) (i₂ + 1) (n + 1)
            (if n % C = C - 1 then r + 2 else r + 1) h1' h2'
          simp only [packCells, List.map_cons]
          refine ⟨?_, c2, c3, c4⟩
          simp only [writePos]
          rw [c1]

/-- Outer loop congruence: lane lists of pointwise-equal advice lengths
yield identical positions, counters and panic status. -/
theorem assignShaLoop_shape_congr {F G : Type} (C : Nat) (u₁ t₁ u₂ t₂ : Bool) :
    ∀ (d₁ : List (Ctx F)) (d₂ : List (Ctx G)) (s₁ : List (Ctx F)) (s₂ : List (Ctx G))
      (n r : Nat),
      d₁.map (fun c => c.advice.length) = d₂.map (fun c => c.advice.length) →
      s₁.map (fun c => c.advice.length) = s₂.map (fun c => c.advice.length) →
      ((assignShaLoop C u₁ t₁ d₁ s₁ n r).writes.map writePos
          = (assignShaLoop C u₂ t₂ d₂ s₂ n r).writes.map writePos)
        ∧ (assignShaLoop C u₁ t₁ d₁ s₁ n r).numLimbSum
          = (assignShaLoop C u₂ t₂ d₂ s₂ n r).numLimbSum
        ∧ (assignShaLoop C u₁ t₁ d₁ s₁ n r).rowOffset
          = (assignShaLoop C u₂ t₂ d₂ s₂ n r).rowOffset
        ∧ (assignShaLoop C u₁ t₁ d₁ s₁ n r).ok
          = (assignShaLoop C u₂ t₂ d₂ s₂ n r).ok := by
  intro d₁
  induction d₁ with
  | nil =>
    intro d₂ s₁ s₂ n r h1 h2
    have hd2 : d₂ = [] := by
      cases d₂ with
      | nil => rfl
      | cons _ _ => simp at h1
    subst hd2
    cases s₁ with
    | nil =>
      have hs2 : s₂ = [] := by
        cases s₂ with
        | nil => rfl
        | cons _ _ => simp at h2
      subst hs2
      simp [assignShaLoop]
    | cons a as =>
      cases s₂ with
      | nil => simp at h2
      | cons b bs => simp [assignShaLoop]
  | cons cd cds ih =>
    intro d₂ s₁ s₂ n r h1 h2
    cases d₂ with
    | nil => simp at h1
    | cons ce ces =>
      cases s₁ with
      | nil =>
        cases s₂ with
        | nil => simp [assignShaLoop]
        | cons b bs => simp at h2
      | cons csa csas =>
        cases s₂ with
        | nil => simp at h2
        | cons csb csbs =>
          simp only [List.map_cons, List.cons.injEq] at h1 h2
          obtain ⟨hd, hds⟩ := h1
          obtain ⟨hs, hss⟩ := h2
          obtain ⟨p1, p2, p3, p4⟩ := packCells_shape_congr C cd.typeId cd.ctxId
            csa.typeId csa.ctxId ce.typeId ce.ctxId csb.typeId csb.ctxId u₁ t₁ u₂ t₂
            cd.advice ce.advice csa.advice csb.advice 0 0 n r hd hs
          simp only [assignShaLoop]
          by_cases hok : (packCells C cd.typeId cd.ctxId csa.typeId csa.ctxId u₁ t₁
              cd.advice csa.advice 0 n r).ok = true
          · have hok₂ : (packCells C ce.typeId ce.ctxId csb.typeId csb.ctxId u₂ t₂
                ce.advice csb.advice 0 n r).ok = true := by rw [← p4]; exact hok
            rw [if_pos hok, if_pos hok₂, p2, p3]
            obtain ⟨q1, q2, q3, q4⟩ := ih ces csas csbs
              (packCells C ce.typeId ce.ctxId csb.typeId csb.ctxId u₂ t₂
                ce.advice csb.advice 0 n r).numLimbSum
              (packCells C ce.typeId ce.ctxId csb.typeId csb.ctxId u₂ t₂
                ce.advice csb.advice 0 n r).rowOffset hds hss
            refine ⟨?_, q2, q3, q4⟩
            simp only [List.map_append]
            rw [p1, q1]
          · have hok₂ : ¬ (packCells C ce.typeId ce.ctxId csb.typeId csb.ctxId u₂ t₂
                ce.advice csb.advice 0 n r).ok = true := by rw [← p4]; exact hok
            rw [if_neg hok, if_neg hok₂]
            exact ⟨p1, p2, p3, by simp⟩

/-- C3: two packing runs with identical lane creation order and identical
per-lane cell counts give every cell the identical (row, column) slot,
regardless of the `use_unknown` (placeholder) flag, of copy-manager
tracking, of the stored values (even their type), and - through
`assign_raw` - of which pass kind (`witness_gen_only` or not) is running;
only the written values can differ. -/
theorem assign_threads_sha_shape_determinism {F G : Type} (C : Nat)
    (u₁ t₁ u₂ t₂ : Bool) (d₁ s₁ : List (Ctx F)) (d₂ s₂ : List (Ctx G))
    (hd : d₁.map (fun c => c.advice.length) = d₂.map (fun c => c.advice.length))
    (hs : s₁.map (fun c => c.advice.length) = s₂.map (fun c => c.advice.length)) :
    ((assign_threads_sha C u₁ t₁ d₁ s₁).writes.map writePos
        = (assign_threads_sha C u₂ t₂ d₂ s₂).writes.map writePos)
      ∧ ∀ w₁ w₂ : Bool,
          (assign_raw w₁ u₁ C d₁ s₁).writes.map writePos
            = (assign_raw w₂ u₂ C d₂ s₂).writes.map writePos := by
  constructor
  · exact (assignShaLoop_shape_congr C u₁ t₁ u₂ t₂ d₁ d₂ s₁ s₂ 0 0 hd hs).1
  · intro w₁ w₂
    cases w₁ <;> cases w₂ <;>
      simp only [assign_raw, if_pos, if_neg, Bool.false_eq_true, ite_true, ite_false] <;>
      exact (assignShaLoop_shape_congr C _ _ _ _ d₁ d₂ s₁ s₂ 0 0 hd hs).1

/-- Witness for C3: a placeholder-mode tracked run over values 1,2,3 and a
concrete-mode untracked run over different values 7,8,9 produce the same
slots. -/
theorem assign_threads_sha_shape_determinism_witness :
    (([(⟨0, 0, [1, 2, 3]⟩ : Ctx Nat)].map (fun c => c.advice.length)
        = [(⟨5, 5, [7, 8, 9]⟩ : Ctx Nat)].map fun c => c.advice.length)
      ∧ ([(⟨1, 1, [4, 5, 6]⟩ : Ctx Nat)].map (fun c => c.advice.length)
        = [(⟨6, 6, [10, 11, 12]⟩ : Ctx Nat)].map fun c => c.advice.length))
    ∧ (((assign_threads_sha 4 true true [(⟨0, 0, [1, 2, 3]⟩ : Ctx Nat)]
          [(⟨1, 1, [4, 5, 6]⟩ : Ctx Nat)]).writes.map writePos
        = (assign_threads_sha 4 false false [(⟨5, 5, [7, 8, 9]⟩ : Ctx Nat)]
          [(⟨6, 6, [10, 11, 12]⟩ : Ctx Nat)]).writes.map writePos)
      ∧ ∀ w₁ w₂ : Bool,
          (assign_raw w₁ true 4 [(⟨0, 0, [1, 2, 3]⟩ : Ctx Nat)]
              [(⟨1, 1, [4, 5, 6]⟩ : Ctx Nat)]).writes.map writePos
            = (assign_raw w₂ false 4 [(⟨5, 5, [7, 8, 9]⟩ : Ctx Nat)]
              [(⟨6, 6, [10, 11, 12]⟩ : Ctx Nat)]).writes.map writePos) :=
  ⟨⟨by decide, by decide⟩,
    assign_threads_sha_shape_determinism 4 true true false false
      [(⟨0, 0, [1, 2, 3]⟩ : Ctx Nat)] [(⟨1, 1, [4, 5, 6]⟩ : Ctx Nat)]
      [(⟨5, 5, [7, 8, 9]⟩ : Ctx Nat)] [(⟨6, 6, [10, 11, 12]⟩ : Ctx Nat)]
      (by decide) (by decide)⟩

end ShaDynamic

namespace ShaDynamic

/-! ## Length-mismatch panic -/

/-- C4 counterexample: a dense lane of length 5 paired with a spread lane
of length 4 does abort packing (the `zip_eq` panic, `ok = false`), but NOT
before any physical slot is written: the four index-correlated cell pairs
are assigned (8 physical writes) before the panic fires on the fifth
iteration. -/
theorem assign_threads_sha_mismatch_cex :
    (assign_threads_sha 4 false false [(⟨0, 0, List.replicate 5 (0 : Nat)⟩ : Ctx Nat)]
        [(⟨1, 1, List.replicate 4 (0 : Nat)⟩ : Ctx Nat)]).ok = false
      ∧ (assign_threads_sha 4 false false [(⟨0, 0, List.replicate 5 (0 : Nat)⟩ : Ctx Nat)]
        [(⟨1, 1, List.replicate 4 (0 : Nat)⟩ : Ctx Nat)]).writes.length = 8
      ∧ (assign_threads_sha 4 false false [(⟨0, 0, List.replicate 5 (0 : Nat)⟩ : Ctx Nat)]
        [(⟨1, 1, List.replicate 4 (0 : Nat)⟩ : Ctx Nat)]).writes ≠ [] := by
  refine ⟨rfl, rfl, ?_⟩
  decide

/-- C4 (amended): a length-mismatched lane pair is fatal - packing panics
(`ok = false`, nothing is recoverable and no later pair is processed) - but
the panic fires only when one side of the `zip_eq` iterator runs dry, i.e.
after the common prefix of `min` cell pairs has already been written to
physical slots (2 writes per pair). -/
theorem assign_threads_sha_mismatch_aborts {F : Type} (C : Nat) (u t : Bool)
    (cd cs : Ctx F) (h : cd.advice.length ≠ cs.advice.length) :
    (assign_threads_sha C u t [cd] [cs]).ok = false
      ∧ (assign_threads_sha C u t [cd] [cs]).writes.length
        = 2 * min cd.advice.length cs.advice.length := by
  have hiff := packCells_ok_iff C cd.typeId cd.ctxId cs.typeId cs.ctxId u t
    cd.advice cs.advice 0 0 0
  have hok : ¬ (packCells C cd.typeId cd.ctxId cs.typeId cs.ctxId u t
      cd.advice cs.advice 0 0 0).ok = true := fun hk => h (hiff.mp hk)
  have hlen := packCells_writes_length C cd.typeId cd.ctxId cs.typeId cs.ctxId u t
    cd.advice cs.advice 0 0 0
  simp only [assign_threads_sha, assignShaLoop]
  rw [if_neg hok]
  exact ⟨rfl, hlen⟩

/-- Witness for the amended C4: dense lane of 3 cells against spread lane
of 7 cells; the run panics after writing the 3 common pairs (6 slots). -/
theorem assign_threads_sha_mismatch_aborts_witness :
    ((⟨0, 0, List.replicate 3 (0 : Nat)⟩ : Ctx Nat).advice.length
        ≠ (⟨1, 1, List.replicate 7 (0 : Nat)⟩ : Ctx Nat).advice.length)
    ∧ ((assign_threads_sha 2 false true [(⟨0, 0, List.replicate 3 (0 : Nat)⟩ : Ctx Nat)]
          [(⟨1, 1, List.replicate 7 (0 : Nat)⟩ : Ctx Nat)]).ok = false
      ∧ (assign_threads_sha 2 false true [(⟨0, 0, List.replicate 3 (0 : Nat)⟩ : Ctx Nat)]
          [(⟨1, 1, List.replicate 7 (0 : Nat)⟩ : Ctx Nat)]).writes.length
        = 2 * min (⟨0, 0, List.replicate 3 (0 : Nat)⟩ : Ctx Nat).advice.length
            (⟨1, 1, List.replicate 7 (0 : Nat)⟩ : Ctx Nat).advice.length) :=
  ⟨by decide,
    assign_threads_sha_mismatch_aborts 2 false true
      (⟨0, 0, List.replicate 3 (0 : Nat)⟩ : Ctx Nat)
      (⟨1, 1, List.replicate 7 (0 : Nat)⟩ : Ctx Nat) (by decide)⟩

end ShaDynamic

namespace ShaDynamic

/-! ## Layout sizing -/

/-- `(c + m - 1) / m` is the ceiling of `c / m`: it is the least `j` with
`c ≤ j * m` (Galois characterisation of the ceiling). -/
theorem ceil_div_char (m : Nat) (hm : 0 < m) (c j : Nat) :
    (c + m - 1) / m ≤ j ↔ c ≤ j * m := by
  constructor
  · intro hle
    by_contra hgt
    push_neg at hgt
    have h1 : j + 1 ≤ (c + m - 1) / m := by
      rw [Nat.le_div_iff_mul_le hm]
      have : j * m + 1 ≤ c := hgt
      calc (j + 1) * m = j * m + m := by ring
        _ ≤ c + m - 1 := by omega
    omega
  · intro hc
    have h1 : (c + m - 1) / m < j + 1 := by
      rw [Nat.div_lt_iff_lt_mul hm]
      have h2 : (j + 1) * m = j * m + m := by ring
      omega
    omega

/-- C5: `calculate_params` sizes the lookup-advice columns of every phase
as `ceil(total_lookup_cells / usable_rows)` with
`usable_rows = 2^k - minimum_rows.unwrap_or(0)`: the computed counts are
`(count + usable - 1) / usable`, that expression is the mathematical
ceiling (least `j` with `count ≤ j * usable`), and on phase totals
`[0, usable, usable + 1]` the computed counts are `[0, 1, 2]`. -/
theorem calculate_params_lookup_columns {σ : Type} (b : ShaCircuitBuilderM σ)
    (gateCalc : σ → Nat → Option Nat → FlexGateConfigParams) (mr : Option Nat)
    (h : 0 < 2 ^ b.configParams.k - mr.getD 0) :
    ((b.calculate_params gateCalc mr).1.num_lookup_advice_per_phase
        = b.lookupTotalRows.map fun c =>
            (c + (2 ^ b.configParams.k - mr.getD 0) - 1)
              / (2 ^ b.configParams.k - mr.getD 0))
      ∧ (∀ c j : Nat,
          (c + (2 ^ b.configParams.k - mr.getD 0) - 1)
              / (2 ^ b.configParams.k - mr.getD 0) ≤ j
            ↔ c ≤ j * (2 ^ b.configParams.k - mr.getD 0))
      ∧ (({ b with lookupTotalRows :=
              [0, 2 ^ b.configParams.k - mr.getD 0,
                2 ^ b.configParams.k - mr.getD 0 + 1] } :
            ShaCircuitBuilderM σ).calculate_params gateCalc mr).1.num_lookup_advice_per_phase
        = [0, 1, 2] := by
  set m := 2 ^ b.configParams.k - mr.getD 0 with hm
  refine ⟨rfl, fun c j => ceil_div_char m h c j, ?_⟩
  show [(0 + m - 1) / m, (m + m - 1) / m, (m + 1 + m - 1) / m] = [0, 1, 2]
  have e0 : (0 + m - 1) / m = 0 := Nat.div_eq_of_lt (by omega)
  have e1 : (m + m - 1) / m = 1 := by
    have h2 : m + m - 1 = m * 1 + (m - 1) := by omega
    rw [h2, Nat.mul_add_div h, Nat.div_eq_of_lt (by omega)]
  have e2 : (m + 1 + m - 1) / m = 2 := by
    have h2 : m + 1 + m - 1 = m * 2 := by omega
    rw [h2, Nat.mul_div_cancel_left 2 h]
  rw [e0, e1, e2]

/-- Witness for C5: `k = 3`, `minimum_rows = Some 2`, so `usable = 6`. -/
theorem calculate_params_lookup_columns_witness :
    (0 < 2 ^ (3 : Nat) - (some 2).getD 0)
    ∧ ((((⟨17, [0, 5, 20], ⟨3, [], 0, [], none, 1⟩⟩ : ShaCircuitBuilderM Nat).calculate_params
            (fun c k _ => ⟨k, [c], 1⟩) (some 2)).1.num_lookup_advice_per_phase
        = [0, 5, 20].map fun c => (c + (2 ^ (3 : Nat) - (some 2).getD 0) - 1)
            / (2 ^ (3 : Nat) - (some 2).getD 0))
      ∧ (∀ c j : Nat,
          (c + (2 ^ (3 : Nat) - (some 2).getD 0) - 1)
              / (2 ^ (3 : Nat) - (some 2).getD 0) ≤ j
            ↔ c ≤ j * (2 ^ (3 : Nat) - (some 2).getD 0))
      ∧ (({ (⟨17, [0, 5, 20], ⟨3, [], 0, [], none, 1⟩⟩ : ShaCircuitBuilderM Nat) with
              lookupTotalRows :=
                [0, 2 ^ (3 : Nat) - (some 2).getD 0,
                  2 ^ (3 : Nat) - (some 2).getD 0 + 1] } :
            ShaCircuitBuilderM Nat).calculate_params
            (fun c k _ => ⟨k, [c], 1⟩) (some 2)).1.num_lookup_advice_per_phase
        = [0, 1, 2]) :=
  ⟨by decide,
    calculate_params_lookup_columns (⟨17, [0, 5, 20], ⟨3, [], 0, [], none, 1⟩⟩ :
        ShaCircuitBuilderM Nat)
      (fun c k _ => ⟨k, [c], 1⟩) (some 2) (by decide)⟩

/-- C6: `calculate_params` clones the core statistics instead of consuming
them, so the recorded lanes (`core`) and lookup totals are untouched, and a
second call on the resulting builder returns a bit-identical shape
descriptor, provided the delegated external gate sizing hands back the `k`
it was given (as `halo2-base` does). -/
theorem calculate_params_idempotent {σ : Type} (b : ShaCircuitBuilderM σ)
    (gateCalc : σ → Nat → Option Nat → FlexGateConfigParams) (mr : Option Nat)
    (hk : (gateCalc b.core b.configParams.k mr).k = b.configParams.k) :
    (((b.calculate_params gateCalc mr).2.calculate_params gateCalc mr).1
        = (b.calculate_params gateCalc mr).1)
      ∧ (b.calculate_params gateCalc mr).2.core = b.core
      ∧ (b.calculate_params gateCalc mr).2.lookupTotalRows = b.lookupTotalRows := by
  refine ⟨?_, rfl, rfl⟩
  simp only [ShaCircuitBuilderM.calculate_params, hk]

/-- Witness for C6: a concrete builder and a concrete (k-preserving) gate
sizing function. -/
theorem calculate_params_idempotent_witness :
    (((fun c k (_ : Option Nat) => (⟨k, [c], 1⟩ : FlexGateConfigParams)) 7 4 none).k
        = (4 : Nat))
    ∧ ((((⟨7, [5, 0, 0], ⟨4, [2], 1, [1], some 8, 1⟩⟩ : ShaCircuitBuilderM Nat).calculate_params
            (fun c k _ => ⟨k, [c], 1⟩) none).2.calculate_params
            (fun c k _ => ⟨k, [c], 1⟩) none).1
        = ((⟨7, [5, 0, 0], ⟨4, [2], 1, [1], some 8, 1⟩⟩ : ShaCircuitBuilderM Nat).calculate_params
            (fun c k _ => ⟨k, [c], 1⟩) none).1
      ∧ ((⟨7, [5, 0, 0], ⟨4, [2], 1, [1], some 8, 1⟩⟩ : ShaCircuitBuilderM Nat).calculate_params
          (fun c k _ => ⟨k, [c], 1⟩) none).2.core = 7
      ∧ ((⟨7, [5, 0, 0], ⟨4, [2], 1, [1], some 8, 1⟩⟩ : ShaCircuitBuilderM Nat).calculate_params
          (fun c k _ => ⟨k, [c], 1⟩) none).2.lookupTotalRows = [5, 0, 0]) :=
  ⟨by decide,
    calculate_params_idempotent (⟨7, [5, 0, 0], ⟨4, [2], 1, [1], some 8, 1⟩⟩ :
        ShaCircuitBuilderM Nat)
      (fun c k _ => ⟨k, [c], 1⟩) none (by decide)⟩

end ShaDynamic
